import Mathlib

/-
Formal model of scraper.py from the journal_summarizer repository.

The file embeds the pipeline of PaperCollector as pure Lean functions:
fetch_arxiv becomes entryToPaper/collectPapers over parsed feed entries,
summarize becomes a fold over an oracle describing each OpenAI call,
save_results becomes renderers for JSON and Markdown plus a store update,
and run ties them together over an environment describing the effects.
-/

/-- ASCII whitespace, the character class used by Python str.split and
str.strip for the inputs occurring here. -/
def isPySpace (c : Char) : Bool :=
  c == ' ' || c == '\t' || c == '\n' || c == '\r' || c == '\x0b' || c == '\x0c'

/-- Remove trailing whitespace from a character list. -/
def rmTrailC (l : List Char) : List Char :=
  (l.reverse.dropWhile isPySpace).reverse

/-- Characters of the Python expression s.strip(). -/
def pyStripC (l : List Char) : List Char :=
  rmTrailC (l.dropWhile isPySpace)

/-- The Python expression s.strip(). -/
def pyStrip (s : String) : String := ⟨pyStripC s.data⟩

/-- Scanner of the Python expression s.split(): the first argument holds
the characters of the current word in reverse. -/
def pySplitAcc : List Char → List Char → List (List Char)
  | [], [] => []
  | a :: as, [] => [(a :: as).reverse]
  | [], c :: cs => if isPySpace c then pySplitAcc [] cs else pySplitAcc [c] cs
  | a :: as, c :: cs =>
    if isPySpace c then (a :: as).reverse :: pySplitAcc [] cs
    else pySplitAcc (c :: a :: as) cs

/-- The Python expression s.split(): the maximal whitespace-free words
of s, in order, with empty words dropped. -/
def pySplitC (l : List Char) : List (List Char) := pySplitAcc [] l

/-- Join words with single spaces: the Python expression " ".join(ws). -/
def joinWords : List (List Char) → List Char
  | [] => []
  | [w] => w
  | w :: x :: ws => w ++ ' ' :: joinWords (x :: ws)

/-- The Python expression " ".join(s.split()): collapse whitespace runs
to single spaces and trim the ends. -/
def pyNormalize (s : String) : String := ⟨joinWords (pySplitC s.data)⟩

/-- One atom:entry element of the arXiv feed, as seen by fetch_arxiv.
Each field is the findtext result for the corresponding child element:
none when the element is absent, in which case findtext returns the
default value, the empty string. -/
structure RawEntry where
  title : Option String
  summary : Option String
  id : Option String
  published : Option String
deriving DecidableEq, Repr

/-- A paper dict as built by fetch_arxiv and enriched by summarize.
Optional fields model presence of the corresponding dict key. -/
structure Paper where
  title : String
  abstract : String
  url : String
  source : String
  published : Option String
  aiSummary : Option String
deriving DecidableEq, Repr

/-- The body of the entry loop of fetch_arxiv (scraper.py lines 81-101):
strip title and abstract, read url and published raw, skip the entry
when the stripped title, the stripped abstract, or the raw url is empty,
otherwise build the paper dict with whitespace-normalized title and
abstract. -/
def entryToPaper (e : RawEntry) : Option Paper :=
  let t := pyStrip (e.title.getD "")
  let a := pyStrip (e.summary.getD "")
  let u := e.id.getD ""
  let pub := e.published.getD ""
  if t = "" ∨ a = "" ∨ u = "" then none
  else some
    { title := pyNormalize t
      abstract := pyNormalize a
      url := u
      source := "arXiv"
      published := some pub
      aiSummary := none }

/-- The paper list fetch_arxiv builds from the parsed feed entries. -/
def collectPapers (entries : List RawEntry) : List Paper :=
  entries.filterMap entryToPaper

/-- Hexadecimal digit character, lowercase, as produced by the %04x
format used by the json encoder for escaped control characters. -/
def hexDigitCh (n : Nat) : Char :=
  if n < 10 then Char.ofNat (48 + n) else Char.ofNat (87 + n)

/-- Value of one hexadecimal digit character. -/
def hexVal (c : Char) : Option Nat :=
  if '0' ≤ c ∧ c ≤ '9' then some (c.toNat - 48)
  else if 'a' ≤ c ∧ c ≤ 'f' then some (c.toNat - 87)
  else if 'A' ≤ c ∧ c ≤ 'F' then some (c.toNat - 55)
  else none

/-- Value of a four-digit hexadecimal escape. -/
def hexVal4 (a b c d : Char) : Option Nat := do
  let x ← hexVal a
  let y ← hexVal b
  let z ← hexVal c
  let w ← hexVal d
  pure (((x * 16 + y) * 16 + z) * 16 + w)

/-- How json.dump with ensure_ascii=False writes one character inside a
string literal: quote, backslash and control characters are escaped,
every other character, non-ASCII included, is written unchanged. -/
def escChar (c : Char) : List Char :=
  if c = '"' then ['\\', '"']
  else if c = '\\' then ['\\', '\\']
  else if c = '\x08' then ['\\', 'b']
  else if c = '\x0c' then ['\\', 'f']
  else if c = '\n' then ['\\', 'n']
  else if c = '\r' then ['\\', 'r']
  else if c = '\t' then ['\\', 't']
  else if c.toNat < 32 then
    ['\\', 'u', '0', '0', hexDigitCh (c.toNat / 16), hexDigitCh (c.toNat % 16)]
  else [c]

/-- Escape a whole string body. -/
def escStr (l : List Char) : List Char := (l.map escChar).flatten

/-- Opening of a serialized paper object up to the opening quote of the
title value, with the two-space indent of json.dump(papers, indent=2). -/
def litObjStart : List Char := "  \x7b\n    \"title\": \"".data

/-- Separator and key of a subsequent field, up to the opening quote of
its value. -/
def litField (key : String) : List Char := (",\n    \"" ++ key ++ "\": \"").data

/-- Closing of a serialized paper object. -/
def litObjEnd : List Char := "\n  \x7d".data

/-- An optional field of the paper dict: absent keys produce nothing. -/
def optFieldC (key : String) (v : Option String) : List Char :=
  match v with
  | none => []
  | some s => litField key ++ escStr s.data ++ ['"']

/-- Characters of one serialized paper object, exactly as json.dump
writes it: keys in dict insertion order, indent 2, values escaped with
ensure_ascii=False. -/
def renderObjC (p : Paper) : List Char :=
  litObjStart ++ escStr p.title.data ++ ['"']
  ++ litField "abstract" ++ escStr p.abstract.data ++ ['"']
  ++ litField "url" ++ escStr p.url.data ++ ['"']
  ++ litField "source" ++ escStr p.source.data ++ ['"']
  ++ optFieldC "published" p.published
  ++ optFieldC "ai_summary" p.aiSummary
  ++ litObjEnd

/-- The serialized array elements, separated by comma plus newline. -/
def renderItemsC : List Paper → List Char
  | [] => []
  | [p] => renderObjC p
  | p :: q :: rest => renderObjC p ++ ',' :: '\n' :: renderItemsC (q :: rest)

/-- Full content of the JSON file written by save_results:
json.dump(papers, f, indent=2, ensure_ascii=False). -/
def renderPapersJson (ps : List Paper) : String :=
  match ps with
  | [] => "[]"
  | _ => ⟨'[' :: '\n' :: (renderItemsC ps ++ ['\n', ']'])⟩

/-- Consume an expected literal prefix. -/
def dropLit : List Char → List Char → Option (List Char)
  | [], input => some input
  | _ :: _, [] => none
  | c :: cs, d :: ds => if c = d then dropLit cs ds else none

/-- Resolve a single-character JSON escape. -/
def unescapeChar (e : Char) : Option Char :=
  if e = '"' then some '"'
  else if e = '\\' then some '\\'
  else if e = '/' then some '/'
  else if e = 'b' then some '\x08'
  else if e = 'f' then some '\x0c'
  else if e = 'n' then some '\n'
  else if e = 'r' then some '\r'
  else if e = 't' then some '\t'
  else none

/-- Parse a JSON string body up to and including the closing quote,
returning the decoded characters and the rest of the input. -/
def parseStr : List Char → Option (List Char × List Char)
  | [] => none
  | c :: rest =>
    if c = '"' then some ([], rest)
    else if c = '\\' then
      match rest with
      | [] => none
      | e :: rest2 =>
        if e = 'u' then
          match rest2 with
          | a :: b :: c2 :: d :: rest3 =>
            match hexVal4 a b c2 d with
            | none => none
            | some n =>
              match parseStr rest3 with
              | none => none
              | some (v, r) => some (Char.ofNat n :: v, r)
          | _ => none
        else
          match unescapeChar e with
          | none => none
          | some ch =>
            match parseStr rest2 with
            | none => none
            | some (v, r) => some (ch :: v, r)
    else
      match parseStr rest with
      | none => none
      | some (v, r) => some (c :: v, r)

/-- Parse a required field: its separator, key and quoted value. -/
def parseField (key : String) (input : List Char) : Option (List Char × List Char) :=
  match dropLit (litField key) input with
  | none => none
  | some r => parseStr r

/-- Parse an optional field: absent when the separator and key do not
follow, failing only on a present key with a malformed value. -/
def parseOptF (key : String) (input : List Char) :
    Option (Option String × List Char) :=
  match dropLit (litField key) input with
  | none => some (none, input)
  | some r =>
    match parseStr r with
    | none => none
    | some (v, r2) => some (some (String.mk v), r2)

/-- Parse one serialized paper object. -/
def parseObj (input : List Char) : Option (Paper × List Char) :=
  match dropLit litObjStart input with
  | none => none
  | some r0 =>
  match parseStr r0 with
  | none => none
  | some (t, r1) =>
  match parseField "abstract" r1 with
  | none => none
  | some (a, r2) =>
  match parseField "url" r2 with
  | none => none
  | some (u, r3) =>
  match parseField "source" r3 with
  | none => none
  | some (s, r4) =>
  match parseOptF "published" r4 with
  | none => none
  | some (pub, r5) =>
  match parseOptF "ai_summary" r5 with
  | none => none
  | some (ai, r6) =>
  match dropLit litObjEnd r6 with
  | none => none
  | some r7 =>
    some ({ title := ⟨t⟩, abstract := ⟨a⟩, url := ⟨u⟩, source := ⟨s⟩,
            published := pub, aiSummary := ai }, r7)

/-- Parse the serialized array elements; the fuel bounds the number of
elements and is set from the input length at the top level. -/
def parseItems : Nat → List Char → Option (List Paper)
  | 0, _ => none
  | Nat.succ fuel, input =>
    match parseObj input with
    | none => none
    | some (p, r) =>
      match r with
      | '\n' :: ']' :: [] => some [p]
      | ',' :: '\n' :: r2 => (parseItems fuel r2).map (p :: ·)
      | _ => none

/-- Parse back the JSON file written by save_results. -/
def parsePapers (s : String) : Option (List Paper) :=
  match s.data with
  | ['[', ']'] => some []
  | '[' :: '\n' :: rest => parseItems rest.length rest
  | _ => none

/-- The Published value of the Markdown writer: paper.get with the
default value "unknown" for an absent key. -/
def publishedField (p : Paper) : String := p.published.getD "unknown"

/-- The AI Summary value of the Markdown writer: paper.get with the
default value "Not available" for an absent key. -/
def aiSummaryField (p : Paper) : String := p.aiSummary.getD "Not available"

/-- One Markdown section, exactly the writes of the paper loop of
save_results (scraper.py lines 164-171). -/
def mdSection (p : Paper) : String :=
  "## " ++ p.title ++ "\n"
  ++ "- **Source:** " ++ p.source ++ "\n"
  ++ "- **Published:** " ++ publishedField p ++ "\n"
  ++ "- **URL:** " ++ p.url ++ "\n\n"
  ++ "**Abstract**\n" ++ p.abstract ++ "\n\n"
  ++ "**AI Summary**\n" ++ aiSummaryField p ++ "\n\n"
  ++ "---\n\n"

/-- The fixed Markdown preamble written before the paper sections. -/
def mdHeader (d : String) : String :=
  "# Daily HCI/CMC Paper Brief – " ++ d ++ " (UTC)\n\n"
  ++ "Topics: attention, cognitive offloading, generative AI, virtual reality, "
  ++ "advertising communication.\n\n"

/-- Full content of the Markdown file written by save_results. -/
def renderMarkdown (d : String) (ps : List Paper) : String :=
  mdHeader d ++ String.join (ps.map mdSection)

/-- Path of the JSON file for a given date string. -/
def jsonPath (d : String) : String := "summaries/articles_" ++ d ++ ".json"

/-- Path of the Markdown file for a given date string. -/
def mdPath (d : String) : String := "summaries/articles_" ++ d ++ ".md"

/-- A flat filesystem: path to file content. -/
def FileSys : Type := String → Option String

/-- Opening a path in write mode and writing content: the previous
content of that path, if any, is discarded. -/
def writeFile (path content : String) (fs : FileSys) : FileSys :=
  fun q => if q = path then some content else fs q

/-- Effect of save_results on the filesystem: write the JSON file, then
the Markdown file, both under the date-keyed names. -/
def saveResults (d : String) (ps : List Paper) (fs : FileSys) : FileSys :=
  writeFile (mdPath d) (renderMarkdown d ps) (writeFile (jsonPath d) (renderPapersJson ps) fs)

/-- Outcome of one chat-completion call, as seen by _call_openai: ok
carries the message content extracted from the response, error carries
the text of the exception raised anywhere inside the try block
(transport error, non-2xx status, JSON decode failure, or a missing
key in the response body). -/
def OpenAiResult : Type := Except String String

/-- Whether the call failed. -/
def callFailed (r : OpenAiResult) : Bool :=
  match r with
  | .error _ => true
  | .ok _ => false

/-- The exception text of a failed call. -/
def callErrText (r : OpenAiResult) : String :=
  match r with
  | .error e => e
  | .ok _ => ""

/-- Return value of _call_openai: the stripped content on success, the
literal placeholder after a logged exception. -/
def callOpenAi (r : OpenAiResult) : String :=
  match r with
  | .ok body => pyStrip body
  | .error _ => "Summary unavailable"

/-- The summarize method of PaperCollector: with no API key the input
list is returned unchanged; otherwise every paper, in order, gets the
ai_summary key set to the _call_openai result for its request. -/
def summarize (key : Option String) (oracle : Nat → OpenAiResult)
    (ps : List Paper) : List Paper :=
  match key with
  | none => ps
  | some _ => ps.enum.map (fun ip => { ip.2 with aiSummary := some (callOpenAi (oracle ip.1)) })

/-- The progress line printed before each summarization request. -/
def summaryProgressLog (i total : Nat) (p : Paper) : String :=
  "🧠 Summarizing " ++ toString i ++ "/" ++ toString total ++ ": "
  ++ (p.title.take 80) ++ "..."

/-- The error line printed by _call_openai on a failed call. -/
def summaryErrorLogs (r : OpenAiResult) : List String :=
  match r with
  | .ok _ => []
  | .error e => ["❌ Summary error: " ++ e]

/-- Console output of the summarize loop. -/
def summarizeLogs (oracle : Nat → OpenAiResult) (ps : List Paper) : List String :=
  (ps.enum.map (fun ip =>
    summaryProgressLog (ip.1 + 1) ps.length ip.2 :: summaryErrorLogs (oracle ip.1))).flatten

/-- Failure of the listing fetch in fetch_arxiv: urlError is a
urllib.error.URLError raised by the HTTP request, parseError is an
exception raised by ElementTree.fromstring on malformed feed text. -/
inductive FetchErr where
  | urlError (msg : String)
  | parseError (msg : String)
deriving DecidableEq, Repr

/-- Environment of one run: the outcome of the listing fetch and parse,
the OPENAI_API_KEY value, the outcome of each chat-completion request
by index, and the current UTC date string. -/
structure Env where
  fetchResult : Except FetchErr (List RawEntry)
  apiKey : Option String
  openaiResult : Nat → OpenAiResult
  today : String

/-- Observable outcome of run(): files written in order, console lines
printed, and, for an exception that no handler catches, its text. -/
structure RunResult where
  files : List (String × String)
  logs : List String
  crashed : Option String
deriving Repr

/-- The line printed when fetch_arxiv starts. -/
def fetchStartLog : String := "🔍 Collecting papers from arXiv API (no HTML scraping)..."

/-- The run method of PaperCollector: fetch_arxiv inside a try that
catches only urllib.error.URLError, then the empty-collection early
return, then summarize and save_results. A parse failure of the feed is
not a URLError, so it escapes run() as an uncaught exception; either
failure of the listing fetch prevents any file from being written. -/
def run (env : Env) : RunResult :=
  match env.fetchResult with
  | .error (.parseError msg) =>
    { files := [], logs := [fetchStartLog], crashed := some msg }
  | .error (.urlError msg) =>
    { files := [],
      logs := [fetchStartLog, "❌ Failed to fetch arXiv API: " ++ msg],
      crashed := none }
  | .ok entries =>
    let papers := collectPapers entries
    let foundLog := "✅ Found " ++ toString papers.length ++ " papers."
    if papers.isEmpty then
      { files := [],
        logs := [fetchStartLog, foundLog, "⚠️ No papers collected."],
        crashed := none }
    else
      let stageLogs :=
        match env.apiKey with
        | none => ["⚠️ OPENAI_API_KEY not set; skipping AI summaries."]
        | some _ => summarizeLogs env.openaiResult papers
      let final := summarize env.apiKey env.openaiResult papers
      { files := [(jsonPath env.today, renderPapersJson final),
                  (mdPath env.today, renderMarkdown env.today final)],
        logs := [fetchStartLog, foundLog] ++ stageLogs
          ++ ["💾 Saved: " ++ jsonPath env.today ++ " and " ++ mdPath env.today,
              "✅ Daily brief generated."],
        crashed := none }

/-- Blank test matching the Python truthiness test on a stripped
string: true when every character is whitespace. -/
def isBlank (s : String) : Bool := s.data.all isPySpace

/-- Forget the ai_summary key of a paper. -/
def eraseSummary (p : Paper) : Paper := { p with aiSummary := none }

/-- Acceptance test of the amended claim C1, written from the spec side:
title and abstract must not be missing or whitespace-only, and the
identifier must not be missing or the empty string. -/
def specAccepts (e : RawEntry) : Bool :=
  !isBlank (e.title.getD "") && !isBlank (e.summary.getD "") && e.id.getD "" != ""

/-- The paper an accepted entry produces, written from the spec side:
normalized title and abstract, verbatim identifier as url, the fixed
source label, and the raw published string. -/
def specMkPaper (e : RawEntry) : Paper :=
  { title := pyNormalize (pyStrip (e.title.getD ""))
    abstract := pyNormalize (pyStrip (e.summary.getD ""))
    url := e.id.getD ""
    source := "arXiv"
    published := some (e.published.getD "")
    aiSummary := none }

/-- A well-formed feed entry whose title carries a double space. -/
def eGood : RawEntry :=
  { title := some "Foo  Bar", summary := some "A valid abstract.",
    id := some "http://arxiv.org/abs/1111.1111", published := some "2024-01-02" }

/-- The paper eGood produces. -/
def pFooBar : Paper :=
  { title := "Foo Bar", abstract := "A valid abstract.",
    url := "http://arxiv.org/abs/1111.1111", source := "arXiv",
    published := some "2024-01-02", aiSummary := none }

/-- An entry whose identifier is whitespace-only but not empty. -/
def eWsUrl : RawEntry :=
  { title := some "Title", summary := some "Abstract", id := some "   ",
    published := none }

/-- A well-formed entry whose source exposes no published date. -/
def eNoDate : RawEntry :=
  { title := some "T", summary := some "A", id := some "http://arxiv.org/abs/1",
    published := none }

/-- The paper eNoDate produces: the published key is present and empty. -/
def pNoDate : Paper :=
  { title := "T", abstract := "A", url := "http://arxiv.org/abs/1",
    source := "arXiv", published := some "", aiSummary := none }

/-- pNoDate after a failed summarization request. -/
def pNoDateFailed : Paper :=
  { title := "T", abstract := "A", url := "http://arxiv.org/abs/1",
    source := "arXiv", published := some "", aiSummary := some "Summary unavailable" }

/-- A paper record with no published key at all. -/
def pUnknown : Paper :=
  { title := "X", abstract := "Y", url := "u", source := "arXiv",
    published := none, aiSummary := none }

/-- Environment of a run whose listing fetch raises URLError. -/
def envC2a : Env :=
  { fetchResult := .error (.urlError "boom"), apiKey := none,
    openaiResult := fun _ => .ok "", today := "2026-10-12" }

/-- Environment of a run with one paper and an always-failing summarizer. -/
def envC2b : Env :=
  { fetchResult := .ok [eNoDate], apiKey := some "k",
    openaiResult := fun _ => .error "down", today := "2026-10-12" }

/-- Environment with a configured credential, an always-failing
summarizer, and an empty listing. -/
def envC3cex : Env :=
  { fetchResult := .ok [], apiKey := some "k",
    openaiResult := fun _ => .error "down", today := "2026-10-12" }

/-- Environment with a configured credential, an always-failing
summarizer, and one well-formed entry. -/
def envC3w : Env :=
  { fetchResult := .ok [eNoDate], apiKey := some "k",
    openaiResult := fun _ => .error "down", today := "2026-10-12" }

/-- Environment used to witness order preservation. -/
def envC6 : Env :=
  { fetchResult := .ok [eGood, eNoDate], apiKey := some "k",
    openaiResult := fun i => if i = 0 then .ok " S0 " else .error "down",
    today := "2026-10-12" }

/-- Environment whose listing parses to no well-formed entry. -/
def envC10 : Env :=
  { fetchResult := .ok [], apiKey := none,
    openaiResult := fun _ => .ok "", today := "2026-10-12" }

lemma takeWhile_dropWhile_append_neg (p : Char → Bool) (l₂ : List Char) :
    ∀ l₁, (∃ x ∈ l₁, p x = false) →
      (l₁ ++ l₂).takeWhile p = l₁.takeWhile p ∧
      (l₁ ++ l₂).dropWhile p = l₁.dropWhile p ++ l₂ := by
  intro l₁
  induction l₁ with
  | nil => rintro ⟨x, hx, -⟩; cases hx
  | cons a t ih =>
    rintro ⟨x, hx, hpx⟩
    rcases List.mem_cons.mp hx with h | h
    · subst h
      simp [List.takeWhile_cons, List.dropWhile_cons, hpx]
    · by_cases hpa : p a
      · have := ih ⟨x, h, hpx⟩
        simp [List.takeWhile_cons, List.dropWhile_cons, hpa, this.1, this.2]
      · simp [List.takeWhile_cons, List.dropWhile_cons, hpa]

lemma pySplitAcc_word : ∀ (cs acc : List Char), acc ≠ [] →
    pySplitAcc acc cs =
      (acc.reverse ++ cs.takeWhile (fun x => !isPySpace x)) ::
        pySplitAcc [] (cs.dropWhile (fun x => !isPySpace x)) := by
  intro cs
  induction cs with
  | nil =>
    intro acc hacc
    rcases acc with _ | ⟨a, as⟩
    · exact absurd rfl hacc
    · simp [pySplitAcc]
  | cons c cs ih =>
    intro acc hacc
    rcases acc with _ | ⟨a, as⟩
    · exact absurd rfl hacc
    · by_cases hc : isPySpace c
      · rw [show pySplitAcc (a :: as) (c :: cs) = (a :: as).reverse :: pySplitAcc [] cs
          from by simp [pySplitAcc, hc]]
        rw [List.takeWhile_cons, List.dropWhile_cons]
        simp only [hc, Bool.not_true, Bool.false_eq_true, if_false, List.append_nil]
        rw [show pySplitAcc [] (c :: cs) = pySplitAcc [] cs from by simp [pySplitAcc, hc]]
      · rw [show pySplitAcc (a :: as) (c :: cs) = pySplitAcc (c :: a :: as) cs
          from by simp [pySplitAcc, hc]]
        rw [ih (c :: a :: as) (by simp)]
        rw [List.takeWhile_cons, List.dropWhile_cons]
        simp [hc]

lemma pySplitC_cons_space {c : Char} (hc : isPySpace c = true) (cs : List Char) :
    pySplitC (c :: cs) = pySplitC cs := by
  simp [pySplitC, pySplitAcc, hc]

lemma pySplitC_cons_word {c : Char} (hc : ¬ isPySpace c = true) (cs : List Char) :
    pySplitC (c :: cs) =
      (c :: cs.takeWhile (fun x => !isPySpace x)) ::
        pySplitC (cs.dropWhile (fun x => !isPySpace x)) := by
  unfold pySplitC
  rw [show pySplitAcc [] (c :: cs) = pySplitAcc [c] cs from by simp [pySplitAcc, hc]]
  rw [pySplitAcc_word cs [c] (by simp)]
  simp

lemma pySplitAcc_mem_ne_nil : ∀ (cs acc w : List Char),
    w ∈ pySplitAcc acc cs → w ≠ [] := by
  intro cs
  induction cs with
  | nil =>
    intro acc w hw
    rcases acc with _ | ⟨a, as⟩
    · cases hw
    · rw [show pySplitAcc (a :: as) [] = [(a :: as).reverse] from rfl] at hw
      rcases List.mem_singleton.mp hw with rfl
      simp
  | cons c cs ih =>
    intro acc w hw
    rcases acc with _ | ⟨a, as⟩
    · by_cases hc : isPySpace c
      · rw [show pySplitAcc [] (c :: cs) = pySplitAcc [] cs from by simp [pySplitAcc, hc]] at hw
        exact ih [] w hw
      · rw [show pySplitAcc [] (c :: cs) = pySplitAcc [c] cs from by simp [pySplitAcc, hc]] at hw
        exact ih [c] w hw
    · by_cases hc : isPySpace c
      · rw [show pySplitAcc (a :: as) (c :: cs) = (a :: as).reverse :: pySplitAcc [] cs
          from by simp [pySplitAcc, hc]] at hw
        rcases List.mem_cons.mp hw with rfl | hw
        · simp
        · exact ih [] w hw
      · rw [show pySplitAcc (a :: as) (c :: cs) = pySplitAcc (c :: a :: as) cs
          from by simp [pySplitAcc, hc]] at hw
        exact ih (c :: a :: as) w hw

lemma pySplitC_nil_of_all (l : List Char) (h : ∀ x ∈ l, isPySpace x = true) :
    pySplitC l = [] := by
  induction l with
  | nil => rfl
  | cons c cs ih =>
    rw [pySplitC_cons_space (h c (by simp))]
    exact ih (fun x hx => h x (by simp [hx]))

lemma pySplitC_eq_nil_iff (l : List Char) :
    pySplitC l = [] ↔ ∀ x ∈ l, isPySpace x = true := by
  constructor
  · intro h
    induction l with
    | nil => simp
    | cons c cs ih =>
      by_cases hc : isPySpace c
      · rw [pySplitC_cons_space hc] at h
        intro x hx
        rcases List.mem_cons.mp hx with rfl | hx
        · exact hc
        · exact ih h x hx
      · rw [pySplitC_cons_word hc] at h
        cases h
  · exact pySplitC_nil_of_all l

lemma pySplitC_words_ne_nil (l : List Char) : ∀ w ∈ pySplitC l, w ≠ [] :=
  fun w hw => pySplitAcc_mem_ne_nil l [] w hw

lemma pySplitC_dropWhile (l : List Char) :
    pySplitC (l.dropWhile isPySpace) = pySplitC l := by
  induction l with
  | nil => rfl
  | cons c cs ih =>
    by_cases hc : isPySpace c
    · rw [List.dropWhile_cons]
      simp only [hc, if_true]
      rw [ih, pySplitC_cons_space hc]
    · rw [List.dropWhile_cons]
      simp [hc]

lemma pySplitC_append_spaces (sp : List Char) (hsp : ∀ x ∈ sp, isPySpace x = true) :
    ∀ n l, l.length ≤ n → pySplitC (l ++ sp) = pySplitC l := by
  have hnil : pySplitC sp = [] := pySplitC_nil_of_all sp hsp
  have hnil0 : pySplitC ([] : List Char) = [] := rfl
  have htw : sp.takeWhile (fun x => !isPySpace x) = [] := by
    cases sp with
    | nil => rfl
    | cons s ss =>
      rw [List.takeWhile_cons]
      simp [hsp s (by simp)]
  have hdw : sp.dropWhile (fun x => !isPySpace x) = sp := by
    cases sp with
    | nil => rfl
    | cons s ss =>
      rw [List.dropWhile_cons]
      simp [hsp s (by simp)]
  intro n
  induction n with
  | zero =>
    intro l hl
    have : l = [] := List.length_eq_zero.mp (Nat.le_zero.mp hl)
    subst this
    rw [List.nil_append, hnil, hnil0]
  | succ n ih =>
    intro l hl
    cases l with
    | nil => rw [List.nil_append, hnil, hnil0]
    | cons c cs =>
      have hcs : cs.length ≤ n := by
        simp only [List.length_cons] at hl
        omega
      rw [List.cons_append]
      by_cases hc : isPySpace c
      · rw [pySplitC_cons_space hc, pySplitC_cons_space hc]
        exact ih cs hcs
      · rw [pySplitC_cons_word hc, pySplitC_cons_word hc]
        by_cases hall : ∀ x ∈ cs, (!isPySpace x) = true
        · rw [List.takeWhile_append_of_pos hall, List.dropWhile_append_of_pos hall,
            htw, hdw, hnil]
          have h1 : cs.takeWhile (fun x => !isPySpace x) = cs :=
            List.takeWhile_eq_self_iff.mpr hall
          have h2 : cs.dropWhile (fun x => !isPySpace x) = [] :=
            List.dropWhile_eq_nil_iff.mpr hall
          rw [h1, h2, hnil0, List.append_nil]
        · have hex : ∃ x ∈ cs, (!isPySpace x) = false := by
            push_neg at hall
            rcases hall with ⟨x, hx, hpx⟩
            exact ⟨x, hx, by simpa using hpx⟩
          obtain ⟨e1, e2⟩ := takeWhile_dropWhile_append_neg (fun x => !isPySpace x) sp cs hex
          rw [e1, e2]
          have hlen : (cs.dropWhile (fun x => !isPySpace x)).length ≤ n := by
            have h3 := (List.dropWhile_sublist (p := fun x => !isPySpace x) (l := cs)).length_le
            omega
          rw [ih _ hlen]

lemma pySplitC_rmTrail (l : List Char) : pySplitC (rmTrailC l) = pySplitC l := by
  have hdecomp : l = rmTrailC l ++ (l.reverse.takeWhile isPySpace).reverse := by
    have h := List.takeWhile_append_dropWhile (p := isPySpace) (l := l.reverse)
    have := congrArg List.reverse h
    rw [List.reverse_append, List.reverse_reverse] at this
    exact this.symm
  have hsp : ∀ x ∈ (l.reverse.takeWhile isPySpace).reverse, isPySpace x = true := by
    intro x hx
    rw [List.mem_reverse] at hx
    exact List.mem_takeWhile_imp hx
  conv_rhs => rw [hdecomp]
  exact (pySplitC_append_spaces _ hsp (rmTrailC l).length (rmTrailC l) le_rfl).symm

lemma pySplitC_strip (l : List Char) : pySplitC (pyStripC l) = pySplitC l := by
  unfold pyStripC
  rw [pySplitC_rmTrail, pySplitC_dropWhile]

lemma pyNormalize_strip (s : String) : pyNormalize (pyStrip s) = pyNormalize s := by
  unfold pyNormalize pyStrip
  congr 1
  exact congrArg joinWords (pySplitC_strip s.data)

lemma pyStripC_eq_nil_iff (l : List Char) :
    pyStripC l = [] ↔ ∀ x ∈ l, isPySpace x = true := by
  unfold pyStripC rmTrailC
  constructor
  · intro h
    have h1 : (l.dropWhile isPySpace).reverse.dropWhile isPySpace = [] := by
      have := congrArg List.reverse h
      rwa [List.reverse_reverse, List.reverse_nil] at this
    have h2 : ∀ x ∈ (l.dropWhile isPySpace).reverse, isPySpace x = true :=
      List.dropWhile_eq_nil_iff.mp h1
    have h3 : ∀ x ∈ l.dropWhile isPySpace, isPySpace x = true := by
      intro x hx
      exact h2 x (List.mem_reverse.mpr hx)
    intro x hx
    have hd := List.takeWhile_append_dropWhile (p := isPySpace) (l := l)
    rw [← hd] at hx
    rcases List.mem_append.mp hx with h | h
    · exact List.mem_takeWhile_imp h
    · exact h3 x h
  · intro h
    have : l.dropWhile isPySpace = [] := List.dropWhile_eq_nil_iff.mpr h
    rw [this]
    rfl

lemma pyStrip_eq_empty_iff (s : String) : pyStrip s = "" ↔ isBlank s = true := by
  unfold pyStrip isBlank
  rw [show ("" : String) = ⟨[]⟩ from rfl]
  constructor
  · intro h
    have : pyStripC s.data = [] := congrArg String.data h
    rw [List.all_eq_true]
    exact (pyStripC_eq_nil_iff s.data).mp this
  · intro h
    rw [List.all_eq_true] at h
    exact congrArg String.mk ((pyStripC_eq_nil_iff s.data).mpr h)

lemma joinWords_ne_nil (ws : List (List Char)) (h1 : ws ≠ [])
    (h2 : ∀ w ∈ ws, w ≠ []) : joinWords ws ≠ [] := by
  match ws with
  | [] => exact absurd rfl h1
  | [w] => exact h2 w (by simp)
  | w :: x :: t =>
    rw [joinWords.eq_def]
    simp

lemma pyNormalize_strip_ne_empty (s : String) (h : pyStrip s ≠ "") :
    pyNormalize (pyStrip s) ≠ "" := by
  rw [pyNormalize_strip]
  unfold pyNormalize
  intro hc
  have hjw : joinWords (pySplitC s.data) = [] := congrArg String.data hc
  have hblank : isBlank s = false := by
    cases hb : isBlank s
    · rfl
    · exact absurd ((pyStrip_eq_empty_iff s).mpr hb) h
  have hsplit : pySplitC s.data ≠ [] := by
    intro hnil
    have := (pySplitC_eq_nil_iff s.data).mp hnil
    have : isBlank s = true := by
      unfold isBlank
      rw [List.all_eq_true]
      exact this
    rw [this] at hblank
    cases hblank
  exact joinWords_ne_nil _ hsplit (pySplitC_words_ne_nil s.data) hjw

lemma hexVal_hexDigitCh : ∀ i : Fin 16, hexVal (hexDigitCh i.val) = some i.val := by
  decide

lemma hexVal4_encode (t : Nat) (ht : t < 32) :
    hexVal4 '0' '0' (hexDigitCh (t / 16)) (hexDigitCh (t % 16)) = some t := by
  have h1 : t / 16 < 16 := by omega
  have h2 : t % 16 < 16 := Nat.mod_lt _ (by omega)
  have e1 := hexVal_hexDigitCh ⟨t / 16, h1⟩
  have e2 := hexVal_hexDigitCh ⟨t % 16, h2⟩
  simp only at e1 e2
  have e0 : hexVal '0' = some 0 := rfl
  rw [hexVal4, e0]
  simp only [Option.bind_eq_bind, Option.some_bind]
  rw [e1, e2]
  simp only [Option.some_bind]
  congr 1
  omega

lemma escStr_cons (c : Char) (cs : List Char) :
    escStr (c :: cs) = escChar c ++ escStr cs := by
  simp [escStr]

lemma parseStr_escape : ∀ (l r : List Char),
    parseStr (escStr l ++ '"' :: r) = some (l, r) := by
  intro l
  induction l with
  | nil =>
    intro r
    rw [show escStr [] = [] from rfl, List.nil_append, parseStr.eq_def]
    simp
  | cons c cs ih =>
    intro r
    rw [escStr_cons, List.append_assoc]
    by_cases h1 : c = '"'
    · subst h1
      rw [show escChar '"' = ['\\', '"'] from rfl, List.cons_append, List.cons_append,
        List.nil_append, parseStr.eq_def]
      simp [unescapeChar, ih]
    by_cases h2 : c = '\\'
    · subst h2
      rw [show escChar '\\' = ['\\', '\\'] from rfl, List.cons_append, List.cons_append,
        List.nil_append, parseStr.eq_def]
      simp [unescapeChar, ih]
    by_cases h3 : c = '\x08'
    · subst h3
      rw [show escChar '\x08' = ['\\', 'b'] from rfl, List.cons_append, List.cons_append,
        List.nil_append, parseStr.eq_def]
      simp [unescapeChar, ih]
    by_cases h4 : c = '\x0c'
    · subst h4
      rw [show escChar '\x0c' = ['\\', 'f'] from rfl, List.cons_append, List.cons_append,
        List.nil_append, parseStr.eq_def]
      simp [unescapeChar, ih]
    by_cases h5 : c = '\n'
    · subst h5
      rw [show escChar '\n' = ['\\', 'n'] from rfl, List.cons_append, List.cons_append,
        List.nil_append, parseStr.eq_def]
      simp [unescapeChar, ih]
    by_cases h6 : c = '\r'
    · subst h6
      rw [show escChar '\r' = ['\\', 'r'] from rfl, List.cons_append, List.cons_append,
        List.nil_append, parseStr.eq_def]
      simp [unescapeChar, ih]
    by_cases h7 : c = '\t'
    · subst h7
      rw [show escChar '\t' = ['\\', 't'] from rfl, List.cons_append, List.cons_append,
        List.nil_append, parseStr.eq_def]
      simp [unescapeChar, ih]
    by_cases h8 : c.toNat < 32
    · rw [escChar, if_neg h1, if_neg h2, if_neg h3, if_neg h4, if_neg h5,
        if_neg h6, if_neg h7, if_pos h8]
      simp only [List.cons_append, List.nil_append]
      rw [parseStr.eq_def]
      have he := hexVal4_encode c.toNat h8
      simp [he, ih, Char.ofNat_toNat]
    · rw [escChar, if_neg h1, if_neg h2, if_neg h3, if_neg h4, if_neg h5,
        if_neg h6, if_neg h7, if_neg h8]
      simp only [List.cons_append, List.nil_append]
      rw [parseStr.eq_def]
      simp [h1, h2, ih]

lemma dropLit_append : ∀ (lit input : List Char),
    dropLit lit (lit ++ input) = some input := by
  intro lit
  induction lit with
  | nil => intro input; rfl
  | cons c cs ih => intro input; simp [dropLit, ih]

lemma dropLit_pub_ai (x : List Char) :
    dropLit (litField "published") (litField "ai_summary" ++ x) = none := rfl

lemma dropLit_pub_end (x : List Char) :
    dropLit (litField "published") (litObjEnd ++ x) = none := rfl

lemma dropLit_ai_end (x : List Char) :
    dropLit (litField "ai_summary") (litObjEnd ++ x) = none := rfl

lemma parseObj_render (p : Paper) (rest : List Char) :
    parseObj (renderObjC p ++ rest) = some (p, rest) := by
  rcases p with ⟨t, a, u, s, pub, ai⟩
  rcases pub with _ | pv <;> rcases ai with _ | av <;>
    simp only [renderObjC, optFieldC, parseObj, parseField, parseOptF,
      List.append_assoc, List.singleton_append, List.cons_append, List.nil_append,
      dropLit_append, parseStr_escape, dropLit_pub_ai, dropLit_pub_end, dropLit_ai_end]

lemma renderObjC_length (p : Paper) : 1 ≤ (renderObjC p).length := by
  rw [renderObjC]
  simp only [List.length_append]
  have h : 1 ≤ litObjStart.length := by decide
  omega

lemma renderItemsC_length : ∀ ps : List Paper, ps.length ≤ (renderItemsC ps).length := by
  intro ps
  induction ps with
  | nil => simp [renderItemsC]
  | cons p ps ih =>
    cases ps with
    | nil =>
      rw [show renderItemsC [p] = renderObjC p from rfl]
      have := renderObjC_length p
      simp only [List.length_cons, List.length_nil]
      omega
    | cons q rest =>
      rw [show renderItemsC (p :: q :: rest) =
        renderObjC p ++ ',' :: '\n' :: renderItemsC (q :: rest) from rfl]
      have h1 := renderObjC_length p
      simp only [List.length_append, List.length_cons] at *
      omega

lemma parseItems_render : ∀ ps : List Paper, ps ≠ [] → ∀ fuel, ps.length ≤ fuel →
    parseItems fuel (renderItemsC ps ++ ['\n', ']']) = some ps := by
  intro ps
  induction ps with
  | nil => intro h; exact absurd rfl h
  | cons p ps ih =>
    intro _ fuel hf
    cases fuel with
    | zero => simp at hf
    | succ fuel =>
      cases ps with
      | nil =>
        rw [show renderItemsC [p] = renderObjC p from rfl]
        rw [parseItems, parseObj_render]
        rfl
      | cons q rest =>
        rw [show renderItemsC (p :: q :: rest) =
          renderObjC p ++ ',' :: '\n' :: renderItemsC (q :: rest) from rfl]
        rw [List.append_assoc]
        simp only [List.cons_append]
        rw [parseItems, parseObj_render]
        have hr := ih (by simp) fuel (by simp at hf; simp; omega)
        simp [hr]

lemma parsePapers_render (ps : List Paper) : parsePapers (renderPapersJson ps) = some ps := by
  cases ps with
  | nil => rfl
  | cons p ps =>
    rw [show renderPapersJson (p :: ps) =
      ⟨'[' :: '\n' :: (renderItemsC (p :: ps) ++ ['\n', ']'])⟩ from rfl]
    rw [parsePapers]
    have hlen : (p :: ps).length ≤ (renderItemsC (p :: ps) ++ ['\n', ']']).length := by
      have := renderItemsC_length (p :: ps)
      simp only [List.length_append, List.length_cons] at *
      omega
    exact parseItems_render (p :: ps) (by simp) _ hlen

lemma eraseSummary_of_none (p : Paper) (h : p.aiSummary = none) : eraseSummary p = p := by
  rcases p with ⟨t, a, u, s, pub, ai⟩
  simp only at h
  simp [eraseSummary, h]

lemma entryToPaper_aiSummary_none (e : RawEntry) (p : Paper)
    (h : entryToPaper e = some p) : p.aiSummary = none := by
  unfold entryToPaper at h
  dsimp only at h
  split at h
  · cases h
  · cases h
    rfl

lemma collectPapers_aiSummary_none (es : List RawEntry) :
    ∀ p ∈ collectPapers es, p.aiSummary = none := by
  intro p hp
  rcases List.mem_filterMap.mp hp with ⟨e, -, he⟩
  exact entryToPaper_aiSummary_none e p he

lemma summarize_map_erase (key : Option String) (oracle : Nat → OpenAiResult)
    (ps : List Paper) (h : ∀ p ∈ ps, p.aiSummary = none) :
    (summarize key oracle ps).map eraseSummary = ps := by
  have hid : ps.map eraseSummary = ps := by
    apply List.map_congr_left ?_ |>.trans (List.map_id ps)
    intro p hp
    exact eraseSummary_of_none p (h p hp)
  cases key with
  | none => simpa [summarize] using hid
  | some k =>
    unfold summarize
    rw [List.map_map]
    have : (eraseSummary ∘ fun ip : Nat × Paper =>
        { ip.2 with aiSummary := some (callOpenAi (oracle ip.1)) }) =
        (eraseSummary ∘ Prod.snd) := by
      funext ip
      rcases ip with ⟨i, p⟩
      rcases p with ⟨t, a, u, s, pub, ai⟩
      simp [eraseSummary]
    rw [this, ← List.map_map, List.enum_map_snd, hid]

lemma summarize_length (key : Option String) (oracle : Nat → OpenAiResult)
    (ps : List Paper) : (summarize key oracle ps).length = ps.length := by
  cases key with
  | none => rfl
  | some k => simp [summarize]

lemma summarize_some_get (k : String) (oracle : Nat → OpenAiResult)
    (ps : List Paper) (i : Nat) (p : Paper)
    (h : (summarize (some k) oracle ps)[i]? = some p) :
    p.aiSummary = some (callOpenAi (oracle i)) := by
  unfold summarize at h
  rw [List.getElem?_map, List.getElem?_enum] at h
  cases hp : ps[i]? with
  | none => rw [hp] at h; cases h
  | some p0 =>
    rw [hp] at h
    simp only [Option.map_some] at h
    cases h
    rfl

lemma entryToPaper_eq_spec (e : RawEntry) :
    entryToPaper e = if specAccepts e then some (specMkPaper e) else none := by
  unfold entryToPaper specMkPaper
  dsimp only
  by_cases hc : pyStrip (e.title.getD "") = "" ∨ pyStrip (e.summary.getD "") = "" ∨
      e.id.getD "" = ""
  · rw [if_pos hc]
    have hacc : specAccepts e = false := by
      unfold specAccepts
      rcases hc with h | h | h
      · have := (pyStrip_eq_empty_iff _).mp h
        simp [this]
      · have := (pyStrip_eq_empty_iff _).mp h
        simp [this]
      · simp [h]
    rw [hacc]
    simp
  · rw [if_neg hc]
    push_neg at hc
    obtain ⟨h1, h2, h3⟩ := hc
    have b1 : isBlank (e.title.getD "") = false := by
      cases hb : isBlank (e.title.getD "")
      · rfl
      · exact absurd ((pyStrip_eq_empty_iff _).mpr hb) h1
    have b2 : isBlank (e.summary.getD "") = false := by
      cases hb : isBlank (e.summary.getD "")
      · rfl
      · exact absurd ((pyStrip_eq_empty_iff _).mpr hb) h2
    have hacc : specAccepts e = true := by
      unfold specAccepts
      simp [b1, b2, h3]
    rw [hacc]
    simp

lemma filterMap_ite (g : RawEntry → Paper) (c : RawEntry → Bool) :
    ∀ es : List RawEntry,
      es.filterMap (fun e => if c e then some (g e) else none) = (es.filter c).map g := by
  intro es
  induction es with
  | nil => rfl
  | cons e t ih =>
    by_cases h : c e <;> simp [List.filterMap_cons, List.filter_cons, h, ih]

lemma collectPapers_eq_spec (es : List RawEntry) :
    collectPapers es = (es.filter specAccepts).map specMkPaper := by
  unfold collectPapers
  have : entryToPaper = fun e => if specAccepts e then some (specMkPaper e) else none :=
    funext entryToPaper_eq_spec
  rw [this, filterMap_ite]

lemma collectPapers_fields_ne_empty (es : List RawEntry) :
    ∀ p ∈ collectPapers es, p.title ≠ "" ∧ p.abstract ≠ "" ∧ p.url ≠ "" := by
  intro p hp
  rw [collectPapers_eq_spec] at hp
  rcases List.mem_map.mp hp with ⟨e, he, rfl⟩
  have hacc : specAccepts e = true := List.of_mem_filter he
  unfold specAccepts at hacc
  simp only [Bool.and_eq_true, Bool.not_eq_true', bne_iff_ne] at hacc
  obtain ⟨⟨b1, b2⟩, b3⟩ := hacc
  have h1 : pyStrip (e.title.getD "") ≠ "" := by
    intro h
    rw [(pyStrip_eq_empty_iff _).mp h] at b1
    cases b1
  have h2 : pyStrip (e.summary.getD "") ≠ "" := by
    intro h
    rw [(pyStrip_eq_empty_iff _).mp h] at b2
    cases b2
  refine ⟨?_, ?_, b3⟩
  · exact pyNormalize_strip_ne_empty _ h1
  · exact pyNormalize_strip_ne_empty _ h2

lemma summarizeLogs_mem (oracle : Nat → OpenAiResult) (ps : List Paper)
    (i : Nat) (p : Paper) (hp : ps[i]? = some p)
    (hf : callFailed (oracle i) = true) :
    ("❌ Summary error: " ++ callErrText (oracle i)) ∈ summarizeLogs oracle ps := by
  unfold summarizeLogs
  rw [List.mem_flatten]
  refine ⟨summaryProgressLog (i + 1) ps.length p :: summaryErrorLogs (oracle i), ?_, ?_⟩
  · apply List.mem_map.mpr
    refine ⟨(i, p), ?_, rfl⟩
    have henum : ps.enum[i]? = some (i, p) := by
      rw [List.getElem?_enum, hp]
      rfl
    exact List.getElem?_mem henum
  · cases ho : oracle i with
    | ok v =>
      unfold callFailed at hf
      rw [ho] at hf
      cases hf
    | error m =>
      simp [summaryErrorLogs, ho, callErrText]

lemma run_urlError (env : Env) (msg : String)
    (h : env.fetchResult = .error (.urlError msg)) :
    run env =
      { files := [],
        logs := [fetchStartLog, "❌ Failed to fetch arXiv API: " ++ msg],
        crashed := none } := by
  unfold run
  rw [h]

lemma run_parseError (env : Env) (msg : String)
    (h : env.fetchResult = .error (.parseError msg)) :
    run env = { files := [], logs := [fetchStartLog], crashed := some msg } := by
  unfold run
  rw [h]

lemma run_emptyCollect (env : Env) (entries : List RawEntry)
    (h : env.fetchResult = .ok entries) (he : collectPapers entries = []) :
    run env =
      { files := [],
        logs := [fetchStartLog,
          "✅ Found " ++ toString (collectPapers entries).length ++ " papers.",
          "⚠️ No papers collected."],
        crashed := none } := by
  unfold run
  rw [h]
  simp [he]

lemma run_ok_result (env : Env) (entries : List RawEntry)
    (h : env.fetchResult = .ok entries) (hne : collectPapers entries ≠ []) :
    run env =
      { files := [(jsonPath env.today,
          renderPapersJson (summarize env.apiKey env.openaiResult (collectPapers entries))),
          (mdPath env.today,
          renderMarkdown env.today (summarize env.apiKey env.openaiResult (collectPapers entries)))],
        logs := [fetchStartLog,
            "✅ Found " ++ toString (collectPapers entries).length ++ " papers."]
          ++ (match env.apiKey with
              | none => ["⚠️ OPENAI_API_KEY not set; skipping AI summaries."]
              | some _ => summarizeLogs env.openaiResult (collectPapers entries))
          ++ ["💾 Saved: " ++ jsonPath env.today ++ " and " ++ mdPath env.today,
              "✅ Daily brief generated."],
        crashed := none } := by
  unfold run
  rw [h]
  have hne2 : (collectPapers entries).isEmpty = false := by
    rw [List.isEmpty_eq_false]
    exact hne
  simp [hne2]

/-- Claim C1, counterexample: an entry whose identifier is whitespace-only
(but non-empty) is not skipped by fetch_arxiv, although the claim says an
entry with a whitespace-only identifier is skipped; the whitespace-only
identifier becomes the url of the returned Paper verbatim. -/
theorem spec_C1_counterexample :
    collectPapers [eWsUrl] =
      [{ title := "Title", abstract := "Abstract", url := "   ", source := "arXiv",
         published := some "", aiSummary := none }] ∧
    isBlank "   " = true := by
  constructor
  · decide
  · decide

/-- Claim C1 (amended): fetch_arxiv returns one Paper per accepted entry in
feed order; an entry is skipped exactly when its title or abstract is
missing or whitespace-only, or its identifier is missing or empty — a
whitespace-only, non-empty identifier is accepted and kept verbatim; every
returned Paper has non-empty title, abstract and url. -/
theorem spec_C1_amended (entries : List RawEntry) :
    collectPapers entries = (entries.filter specAccepts).map specMkPaper ∧
    ∀ p ∈ collectPapers entries, p.title ≠ "" ∧ p.abstract ≠ "" ∧ p.url ≠ "" :=
  ⟨collectPapers_eq_spec entries, collectPapers_fields_ne_empty entries⟩

/-- Witness for spec_C1_amended at a concrete entry list. -/
theorem spec_C1_amended_witness :
    collectPapers [eGood, eWsUrl] =
      ([eGood, eWsUrl].filter specAccepts).map specMkPaper ∧
    (pFooBar.title ≠ "" ∧ pFooBar.abstract ≠ "" ∧ pFooBar.url ≠ "") :=
  ⟨(spec_C1_amended [eGood, eWsUrl]).1,
   (spec_C1_amended [eGood, eWsUrl]).2 pFooBar (by decide)⟩

/-- Claim C2: only a network failure (URLError, caught and reported) or a
parse failure (uncaught, escaping run) of the listing fetch ends the run,
and in both cases no output file is written; every summarization failure
is caught per paper and becomes the placeholder value. -/
theorem spec_C2 (env : Env) :
    (∀ msg, env.fetchResult = .error (.urlError msg) →
      (run env).files = [] ∧ (run env).crashed = none ∧
      ("❌ Failed to fetch arXiv API: " ++ msg) ∈ (run env).logs) ∧
    (∀ msg, env.fetchResult = .error (.parseError msg) →
      (run env).files = [] ∧ (run env).crashed = some msg) ∧
    (∀ entries, env.fetchResult = .ok entries → (run env).crashed = none) ∧
    (∀ k ps i p, env.apiKey = some k →
      (summarize env.apiKey env.openaiResult ps)[i]? = some p →
      callFailed (env.openaiResult i) = true →
      p.aiSummary = some "Summary unavailable") := by
  refine ⟨?_, ?_, ?_, ?_⟩
  · intro msg h
    rw [run_urlError env msg h]
    exact ⟨rfl, rfl, by simp⟩
  · intro msg h
    rw [run_parseError env msg h]
    exact ⟨rfl, rfl⟩
  · intro entries h
    by_cases he : collectPapers entries = []
    · rw [run_emptyCollect env entries h he]
    · rw [run_ok_result env entries h he]
  · intro k ps i p hk hget hf
    rw [hk] at hget
    have hsum := summarize_some_get k env.openaiResult ps i p hget
    rw [hsum]
    cases ho : env.openaiResult i with
    | ok v =>
      unfold callFailed at hf
      rw [ho] at hf
      cases hf
    | error m =>
      unfold callOpenAi
      rfl

/-- Witness for spec_C2 at two concrete environments. -/
theorem spec_C2_witness :
    ((run envC2a).files = [] ∧ (run envC2a).crashed = none ∧
      ("❌ Failed to fetch arXiv API: " ++ "boom") ∈ (run envC2a).logs) ∧
    pNoDateFailed.aiSummary = some "Summary unavailable" :=
  ⟨(spec_C2 envC2a).1 "boom" rfl,
   (spec_C2 envC2b).2.2.2 "k" (collectPapers [eNoDate]) 0 pNoDateFailed rfl
     (by decide) (by decide)⟩

/-- Claim C3, counterexample: with a credential configured and every
summarization request failing, a run over the empty collection completes
but writes no output file at all, refuting the claim quantified over
every collection of Papers. -/
theorem spec_C3_counterexample :
    callFailed (envC3cex.openaiResult 0) = true ∧
    (run envC3cex).files = [] ∧ (run envC3cex).crashed = none := by
  refine ⟨rfl, ?_, ?_⟩ <;> rw [run_emptyCollect envC3cex [] rfl rfl]

/-- Claim C3 (amended): for every run with a configured credential whose
collection is non-empty, if every summarization request fails, then the
run completes without an uncaught exception, writes both output files,
every output Paper has the placeholder summary, and each failure is
logged. -/
theorem spec_C3_amended (env : Env) (entries : List RawEntry) (k : String)
    (h : env.fetchResult = .ok entries) (hk : env.apiKey = some k)
    (hne : collectPapers entries ≠ [])
    (hfail : ∀ i, callFailed (env.openaiResult i) = true) :
    (run env).crashed = none ∧
    (run env).files =
      [(jsonPath env.today,
        renderPapersJson (summarize env.apiKey env.openaiResult (collectPapers entries))),
       (mdPath env.today,
        renderMarkdown env.today (summarize env.apiKey env.openaiResult (collectPapers entries)))] ∧
    (∀ p ∈ summarize env.apiKey env.openaiResult (collectPapers entries),
      p.aiSummary = some "Summary unavailable") ∧
    (∀ i p, (collectPapers entries)[i]? = some p →
      ("❌ Summary error: " ++ callErrText (env.openaiResult i)) ∈ (run env).logs) := by
  refine ⟨?_, ?_, ?_, ?_⟩
  · rw [run_ok_result env entries h hne]
  · rw [run_ok_result env entries h hne]
  · intro p hp
    rcases List.mem_iff_getElem?.mp hp with ⟨i, hi⟩
    rw [hk] at hi
    have hsum := summarize_some_get k env.openaiResult (collectPapers entries) i p hi
    rw [hsum]
    cases ho : env.openaiResult i with
    | ok v =>
      have hf := hfail i
      unfold callFailed at hf
      rw [ho] at hf
      cases hf
    | error m =>
      unfold callOpenAi
      rfl
  · intro i p hp
    rw [run_ok_result env entries h hne]
    have hmem := summarizeLogs_mem env.openaiResult (collectPapers entries) i p hp (hfail i)
    rw [hk]
    simp only [List.mem_append, List.mem_cons]
    left
    right
    exact hmem

/-- Witness for spec_C3_amended at a concrete environment. -/
theorem spec_C3_amended_witness :
    (run envC3w).crashed = none ∧
    pNoDateFailed.aiSummary = some "Summary unavailable" ∧
    ("❌ Summary error: " ++ callErrText (envC3w.openaiResult 0)) ∈ (run envC3w).logs := by
  have h := spec_C3_amended envC3w [eNoDate] "k" rfl rfl (by decide) (fun i => rfl)
  exact ⟨h.1, h.2.2.1 pNoDateFailed (by decide), h.2.2.2 0 pNoDate (by decide)⟩

/-- Claim C4: with no OPENAI_API_KEY configured, summarize returns its
input unchanged — no paper is modified and no ai_summary key is added. -/
theorem spec_C4 (oracle : Nat → OpenAiResult) (ps : List Paper) :
    summarize none oracle ps = ps := rfl

/-- Claim C5: for every accepted entry, the title of the returned Paper
is the raw entry title with whitespace runs collapsed to single spaces
and the ends trimmed, which is what pyNormalize computes. -/
theorem spec_C5 (e : RawEntry) (p : Paper) (h : entryToPaper e = some p) :
    p.title = pyNormalize (e.title.getD "") := by
  unfold entryToPaper at h
  dsimp only at h
  split at h
  · cases h
  · cases h
    exact pyNormalize_strip (e.title.getD "")

/-- Witness for spec_C5: the concrete double-space scenario of the
claim, the entry title Foo␣␣Bar yielding the Paper title Foo␣Bar. -/
theorem spec_C5_witness :
    entryToPaper eGood = some pFooBar ∧
    pFooBar.title = pyNormalize (eGood.title.getD "") ∧
    pyNormalize "Foo  Bar" = "Foo Bar" :=
  ⟨by decide, spec_C5 eGood pFooBar (by decide), by decide⟩

/-- Claim C6: after a successful fetch with a non-empty collection, the
run writes exactly the JSON and Markdown renderings of the summarize
output; the JSON file parses back to exactly that paper list, and that
list is the collected list in the same order with only the ai_summary
key changed — no paper reordered, dropped or merged. -/
theorem spec_C6 (env : Env) (entries : List RawEntry)
    (h : env.fetchResult = .ok entries) (hne : collectPapers entries ≠ []) :
    (run env).files =
      [(jsonPath env.today,
        renderPapersJson (summarize env.apiKey env.openaiResult (collectPapers entries))),
       (mdPath env.today,
        renderMarkdown env.today (summarize env.apiKey env.openaiResult (collectPapers entries)))] ∧
    parsePapers (renderPapersJson (summarize env.apiKey env.openaiResult (collectPapers entries))) =
      some (summarize env.apiKey env.openaiResult (collectPapers entries)) ∧
    (summarize env.apiKey env.openaiResult (collectPapers entries)).map eraseSummary =
      collectPapers entries ∧
    (summarize env.apiKey env.openaiResult (collectPapers entries)).length =
      (collectPapers entries).length := by
  refine ⟨?_, ?_, ?_, ?_⟩
  · rw [run_ok_result env entries h hne]
  · exact parsePapers_render _
  · exact summarize_map_erase env.apiKey env.openaiResult (collectPapers entries)
      (collectPapers_aiSummary_none entries)
  · exact summarize_length env.apiKey env.openaiResult (collectPapers entries)

/-- Witness for spec_C6 at a concrete two-paper environment. -/
theorem spec_C6_witness :
    (run envC6).files =
      [(jsonPath envC6.today,
        renderPapersJson (summarize envC6.apiKey envC6.openaiResult (collectPapers [eGood, eNoDate]))),
       (mdPath envC6.today,
        renderMarkdown envC6.today (summarize envC6.apiKey envC6.openaiResult (collectPapers [eGood, eNoDate])))] ∧
    parsePapers (renderPapersJson (summarize envC6.apiKey envC6.openaiResult (collectPapers [eGood, eNoDate]))) =
      some (summarize envC6.apiKey envC6.openaiResult (collectPapers [eGood, eNoDate])) ∧
    (summarize envC6.apiKey envC6.openaiResult (collectPapers [eGood, eNoDate])).map eraseSummary =
      collectPapers [eGood, eNoDate] ∧
    (summarize envC6.apiKey envC6.openaiResult (collectPapers [eGood, eNoDate])).length =
      (collectPapers [eGood, eNoDate]).length :=
  spec_C6 envC6 [eGood, eNoDate] rfl (by decide)

/-- Claim C7: the JSON file written by save_results round-trips — parsing
the rendered text recovers every Paper with identical field values — and
the encoder leaves every non-ASCII character unescaped. -/
theorem spec_C7 :
    (∀ ps : List Paper, parsePapers (renderPapersJson ps) = some ps) ∧
    (∀ c : Char, 127 < c.toNat → escChar c = [c]) := by
  constructor
  · exact parsePapers_render
  · intro c h
    have h1 : ¬ c = '"' := by intro e; subst e; exact absurd h (by decide)
    have h2 : ¬ c = '\\' := by intro e; subst e; exact absurd h (by decide)
    have h3 : ¬ c = '\x08' := by intro e; subst e; exact absurd h (by decide)
    have h4 : ¬ c = '\x0c' := by intro e; subst e; exact absurd h (by decide)
    have h5 : ¬ c = '\n' := by intro e; subst e; exact absurd h (by decide)
    have h6 : ¬ c = '\r' := by intro e; subst e; exact absurd h (by decide)
    have h7 : ¬ c = '\t' := by intro e; subst e; exact absurd h (by decide)
    have h8 : ¬ c.toNat < 32 := by omega
    rw [escChar, if_neg h1, if_neg h2, if_neg h3, if_neg h4, if_neg h5,
      if_neg h6, if_neg h7, if_neg h8]

/-- Witness for spec_C7 at a concrete paper list and a concrete
non-ASCII character. -/
theorem spec_C7_witness :
    parsePapers (renderPapersJson [pFooBar, pNoDateFailed]) = some [pFooBar, pNoDateFailed] ∧
    escChar 'é' = ['é'] :=
  ⟨spec_C7.1 [pFooBar, pNoDateFailed], spec_C7.2 'é' (by decide)⟩

lemma jsonPath_ne_mdPath (d : String) : jsonPath d ≠ mdPath d := by
  intro h
  have h2 := congrArg (fun s => s.data.length) h
  simp only [jsonPath, mdPath, String.data_append, List.length_append] at h2
  have e2 : (".json" : String).data.length = 5 := by decide
  have e3 : (".md" : String).data.length = 3 := by decide
  rw [e2, e3] at h2
  omega

/-- Claim C8: the output paths are the fixed date-keyed names, a save
stores exactly the rendered JSON and Markdown under them, and saving a
second paper set on the same date overwrites the first save completely —
the resulting store is the one a single save of the latest set yields. -/
theorem spec_C8 (d : String) (ps1 ps2 : List Paper) (fs : FileSys) :
    saveResults d ps2 (saveResults d ps1 fs) = saveResults d ps2 fs ∧
    saveResults d ps1 fs (jsonPath d) = some (renderPapersJson ps1) ∧
    saveResults d ps1 fs (mdPath d) = some (renderMarkdown d ps1) := by
  have hne := jsonPath_ne_mdPath d
  refine ⟨?_, ?_, ?_⟩
  · funext q
    unfold saveResults writeFile
    by_cases h1 : q = mdPath d
    · simp [h1]
    · by_cases h2 : q = jsonPath d
      · simp [h1, h2]
      · simp [h1, h2]
  · unfold saveResults writeFile
    simp [hne]
  · unfold saveResults writeFile
    simp

/-- Claim C9, counterexample: an entry without a published element still
produces a Paper whose published key is present (holding the empty
string), and the Markdown writer prints an empty Published line, not the
literal unknown — refuting both the absence of the field and the
unknown fallback for source-omitted dates. -/
theorem spec_C9_counterexample :
    collectPapers [eNoDate] = [pNoDate] ∧
    pNoDate.published = some "" ∧
    mdSection pNoDate =
      "## T\n- **Source:** arXiv\n- **Published:** \n- **URL:** http://arxiv.org/abs/1\n\n**Abstract**\nA\n\n**AI Summary**\nNot available\n\n---\n\n" := by
  refine ⟨by decide, rfl, by decide⟩

/-- Claim C9 (amended): fetch_arxiv always stores a published key — the
raw source string, empty when the source exposes no date; the Markdown
fallback unknown applies only to a record lacking the key entirely,
which fetched papers never are. -/
theorem spec_C9_amended :
    (∀ e p, entryToPaper e = some p → p.published = some (e.published.getD "")) ∧
    (∀ p : Paper, p.published = none → publishedField p = "unknown") ∧
    (∀ (p : Paper) s, p.published = some s → publishedField p = s) := by
  refine ⟨?_, ?_, ?_⟩
  · intro e p h
    unfold entryToPaper at h
    dsimp only at h
    split at h
    · cases h
    · cases h
      rfl
  · intro p h
    unfold publishedField
    rw [h]
    rfl
  · intro p s h
    unfold publishedField
    rw [h]
    rfl

/-- Witness for spec_C9_amended at concrete papers. -/
theorem spec_C9_amended_witness :
    pNoDate.published = some (eNoDate.published.getD "") ∧
    publishedField pUnknown = "unknown" :=
  ⟨spec_C9_amended.1 eNoDate pNoDate (by decide),
   spec_C9_amended.2.1 pUnknown rfl⟩

/-- Claim C10: when the collected paper list is empty, run reports that
no papers were collected and returns: no file is written, no exception
escapes, and the outcome does not depend on the summarizer configuration
at all — the Summarizer and Result Writer are never reached. -/
theorem spec_C10 (env : Env) (entries : List RawEntry)
    (h : env.fetchResult = .ok entries) (he : collectPapers entries = []) :
    (run env).files = [] ∧
    "⚠️ No papers collected." ∈ (run env).logs ∧
    (run env).crashed = none ∧
    (∀ key2 oracle2, run { env with apiKey := key2, openaiResult := oracle2 } = run env) := by
  have hr := run_emptyCollect env entries h he
  refine ⟨?_, ?_, ?_, ?_⟩
  · rw [hr]
  · rw [hr]
    simp
  · rw [hr]
  · intro key2 oracle2
    have hr2 := run_emptyCollect { env with apiKey := key2, openaiResult := oracle2 } entries h he
    rw [hr, hr2]

/-- Witness for spec_C10 at a concrete environment. -/
theorem spec_C10_witness :
    (run envC10).files = [] ∧
    "⚠️ No papers collected." ∈ (run envC10).logs ∧
    (run envC10).crashed = none ∧
    run { envC10 with apiKey := some "x", openaiResult := fun _ => .error "e" } = run envC10 := by
  have h := spec_C10 envC10 [] rfl rfl
  exact ⟨h.1, h.2.1, h.2.2.1, h.2.2.2 (some "x") (fun _ => .error "e")⟩
